import Mathlib

/-!
# Verification of the budget-cli transaction ingestion and limit-evaluation core

A shallow embedding of the deduplication / ingestion / spending-limit code of
the `budget-cli` repository, together with theorems settling the frozen claims
about it.

Embedding conventions:
* Python `datetime` values are modelled as records of natural numbers
  (`Date`, `Time`, `DateTime`), compared lexicographically.
* Monetary amounts (`float` dollars in the source) are modelled exactly as
  integer cents; the `"%.2f"` normalisation used by the fingerprint generator
  becomes an exact decimal rendering of cents.
* The SQLite store is a record of lists kept in insertion order;
  autoincrement ids are threaded explicitly.  `.first()` on an unordered
  SQLAlchemy query is modelled as the head of the filtered list (SQLite
  returns rows in rowid order for these queries).
* Fallible Python code (raising `ValueError` / `ValidationError`) is modelled
  with `Except String`.
* The SHA-256 digest of `budget/utils.py` is modelled by its preimage string
  (the `hash_input` the source feeds to `hashlib.sha256`): the digest is a
  deterministic function of that string, so every equality of preimages
  transfers to the digest, and distinctness of digests corresponds to
  distinctness of preimages up to SHA-256 collisions, which the source design
  assumes away ("one-way cryptographic hash").
-/

set_option maxRecDepth 8000

namespace BudgetCLI

/-- A calendar date, as in Python `datetime.date` (year-month-day). -/
structure Date where
  year : Nat
  month : Nat
  day : Nat
deriving DecidableEq, Repr

/-- A time of day with microsecond precision, as in Python `datetime.time`. -/
structure Time where
  hour : Nat
  minute : Nat
  second : Nat
  usec : Nat
deriving DecidableEq, Repr

/-- `datetime.min.time()`, i.e. `00:00:00.000000`. -/
def Time.min : Time := ⟨0, 0, 0, 0⟩

/-- `datetime.max.time()`, i.e. `23:59:59.999999`. -/
def Time.max : Time := ⟨23, 59, 59, 999999⟩

/-- A timestamp, as in Python `datetime.datetime`. -/
structure DateTime where
  date : Date
  time : Time
deriving DecidableEq, Repr

/-- Lexicographic order on dates (Python `date` comparison). -/
def Date.leB (a b : Date) : Bool :=
  if a.year ≠ b.year then decide (a.year < b.year)
  else if a.month ≠ b.month then decide (a.month < b.month)
  else decide (a.day ≤ b.day)

/-- Lexicographic order on times of day (Python `time` comparison). -/
def Time.leB (a b : Time) : Bool :=
  if a.hour ≠ b.hour then decide (a.hour < b.hour)
  else if a.minute ≠ b.minute then decide (a.minute < b.minute)
  else if a.second ≠ b.second then decide (a.second < b.second)
  else decide (a.usec ≤ b.usec)

/-- Lexicographic order on timestamps (Python `datetime` comparison). -/
def DateTime.leB (a b : DateTime) : Bool :=
  if a.date ≠ b.date then Date.leB a.date b.date else Time.leB a.time b.time

/-- The Gregorian leap-year rule used by `datetime`. -/
def isLeap (y : Nat) : Bool :=
  y % 4 == 0 && (y % 100 != 0 || y % 400 == 0)

/-- Number of days in a month of a given year, as in `calendar`/`datetime`. -/
def daysInMonth (y m : Nat) : Nat :=
  if m = 2 then (if isLeap y then 29 else 28)
  else if m = 4 ∨ m = 6 ∨ m = 9 ∨ m = 11 then 30
  else 31

/-- The day after a given date (`date + timedelta(days=1)`). -/
def Date.next (d : Date) : Date :=
  if d.day < daysInMonth d.year d.month then ⟨d.year, d.month, d.day + 1⟩
  else if d.month < 12 then ⟨d.year, d.month + 1, 1⟩
  else ⟨d.year + 1, 1, 1⟩

/-- The day before a given date (`date - timedelta(days=1)`). -/
def Date.prev (d : Date) : Date :=
  if 1 < d.day then ⟨d.year, d.month, d.day - 1⟩
  else if 1 < d.month then ⟨d.year, d.month - 1, daysInMonth d.year (d.month - 1)⟩
  else ⟨d.year - 1, 12, 31⟩

/-- `date + timedelta(days=n)`. -/
def Date.addDays (d : Date) : Nat → Date
  | 0 => d
  | n + 1 => (Date.next d).addDays n

/-- `date - timedelta(days=n)`. -/
def Date.subDays (d : Date) : Nat → Date
  | 0 => d
  | n + 1 => (Date.prev d).subDays n

/-- `date.replace(day=k)`. -/
def Date.replaceDay (d : Date) (k : Nat) : Date := ⟨d.year, d.month, k⟩

/-- Days in full years before year `y`, as in CPython's `_days_before_year`. -/
def daysBeforeYear (y : Nat) : Nat :=
  (y - 1) * 365 + (y - 1) / 4 - (y - 1) / 100 + (y - 1) / 400

/-- Days in full months of year `y` before month `m`. -/
def daysBeforeMonth (y m : Nat) : Nat :=
  (List.range (m - 1)).foldl (fun acc i => acc + daysInMonth y (i + 1)) 0

/-- `date.toordinal()`: day 1 is 0001-01-01. -/
def Date.toOrdinal (d : Date) : Nat :=
  daysBeforeYear d.year + daysBeforeMonth d.year d.month + d.day

/-- `date.weekday()`: Monday is 0, Sunday is 6. -/
def Date.weekday (d : Date) : Nat :=
  (d.toOrdinal + 6) % 7

/-- The decimal digit character for `n % 10`. -/
def digitChar (n : Nat) : Char := Char.ofNat (48 + n % 10)

/-- Zero-padded two-digit decimal rendering (`"%02d"` for inputs below 100). -/
def pad2 (n : Nat) : String := String.mk [digitChar (n / 10), digitChar n]

/-- Zero-padded four-digit decimal rendering (`"%04d"` for inputs below
10000; `datetime` years never exceed 9999). -/
def pad4 (n : Nat) : String :=
  String.mk [digitChar (n / 1000), digitChar (n / 100), digitChar (n / 10), digitChar n]

/-- `date.strftime("%Y-%m-%d")`. -/
def Date.toIso (d : Date) : String :=
  pad4 d.year ++ "-" ++ pad2 d.month ++ "-" ++ pad2 d.day

/-- `f"{float(amount):.2f}"` on an exact amount of `c` cents. -/
def fmtAmount2 (c : Int) : String :=
  (if c < 0 then "-" else "") ++ Nat.repr (c.natAbs / 100) ++ "." ++ pad2 (c.natAbs % 100)

/-- Python `str.lower()`: character-wise lower-casing. -/
def pyLower (s : String) : String := String.mk (s.data.map Char.toLower)

/-- Python `str.strip()`: drop leading and trailing whitespace. -/
def pyStrip (s : String) : String :=
  String.mk (((s.data.dropWhile Char.isWhitespace).reverse.dropWhile
    Char.isWhitespace).reverse)

/-- `card.lower().strip() if card else ""` from `generate_transaction_hash`. -/
def normCard : Option String → String
  | some s => pyStrip (pyLower s)
  | none => ""

/-- `hash_input = f"{date_str}|{amount_str}|{desc_normalized}|{card_normalized}"`. -/
def hashInput (dateStr amountStr descStr cardStr : String) : String :=
  dateStr ++ ("|" ++ (amountStr ++ ("|" ++ (descStr ++ ("|" ++ cardStr)))))

/-- `budget/utils.py::generate_transaction_hash` -- normalises the four
identity fields exactly as the source does and concatenates them with `"|"`.
The trailing `hashlib.sha256(...).hexdigest()` of the source is modelled by
this preimage string (see the header comment). -/
def generate_transaction_hash (date : DateTime) (amount : Int) (description : String)
    (card : Option String) : String :=
  hashInput date.date.toIso (fmtAmount2 amount) (pyStrip (pyLower description)) (normCard card)

/-- A row of the `transactions` table (`budget/models.py::Transaction`).
`hash` is the nullable, unique-indexed fingerprint column. -/
structure Txn where
  id : Nat
  type : String
  card : Option String
  category : Option String
  description : String
  amount : Int
  timestamp : DateTime
  hash : Option String
  importSource : String
  importMetadata : Option String
deriving DecidableEq, Repr

/-- A row of the `spending_limits` table (`budget/models.py::SpendingLimit`). -/
structure SpendingLimit where
  id : Nat
  category : Option String
  source : Option String
  limit_amount : Int
  period : String
deriving DecidableEq, Repr

/-- The SQLite database: rows in insertion (rowid) order plus the
autoincrement counters. -/
structure Store where
  txns : List Txn
  limits : List SpendingLimit
  nextTxnId : Nat
  nextLimitId : Nat
deriving DecidableEq, Repr

/-- A freshly created database (`Base.metadata.create_all`); SQLite
autoincrement starts at 1. -/
def emptyStore : Store := ⟨[], [], 1, 1⟩

/-- The argument bundle of `Budget.add_transaction_safe`. -/
structure Candidate where
  type : String
  description : String
  amount : Int
  date : Option DateTime
  card : Option String
  category : Option String
  importSource : String
  metadata : Option String
deriving DecidableEq, Repr

/-- Python truthiness of an `Optional[str]`: `None` and `""` are falsy. -/
def truthy : Option String → Bool
  | none => false
  | some s => decide (s ≠ "")

/-- `sum(txn.amount for txn in q.all())` (and `q.scalar() or 0`): the empty
sum is 0. -/
def sumAmounts (l : List Txn) : Int :=
  l.foldl (fun acc t => acc + t.amount) 0

namespace Budget

/-- `budget/budget.py::Budget.add_transaction` (strict add): validates and
persists unconditionally.  Note that it fills neither the `hash` nor the
`timestamp` column explicitly; `timestamp` takes the column default `now`
and `hash` stays NULL. -/
def add_transaction (σ : Store) (now : DateTime) (type : String) (description : String)
    (amount : Int) (card category : Option String) : Except String (Store × Nat) :=
  if pyStrip description = "" then .error "Description cannot be empty"
  else if amount ≤ 0 then .error "Amount must be positive"
  else if ¬(type = "cash" ∨ type = "card") then .error "Type must be cash or card"
  else
    .ok ({ σ with
            txns := σ.txns ++
              [{ id := σ.nextTxnId, type := type, card := card, category := category,
                 description := pyStrip description, amount := amount, timestamp := now,
                 hash := none, importSource := "manual", importMetadata := none }],
            nextTxnId := σ.nextTxnId + 1 }, σ.nextTxnId)

/-- `budget/budget.py::Budget.add_transaction_safe`.

`σlook` is the database state the dedup lookup observes and `σins` the state
the insert's unique constraint is checked against; a sequential call passes
the same store twice, while `σins` containing extra rows committed by a
concurrent writer models the race of the source's `except IntegrityError`
branch.  On a constraint rejection the source rolls back (leaving the store
as `σins`), re-queries by fingerprint and returns `(found_id, False)`. -/
def add_transaction_safe (σlook σins : Store) (now : DateTime) (c : Candidate) :
    Except String (Store × (Option Nat × Bool)) :=
  if pyStrip c.description = "" then .error "Description cannot be empty"
  else if c.amount ≤ 0 then .error "Amount must be positive"
  else if ¬(c.type = "cash" ∨ c.type = "card") then .error "Type must be cash or card"
  else
    match (σlook.txns.filter (fun t => decide (t.hash =
        some (generate_transaction_hash (c.date.getD now) c.amount c.description
          c.card)))).head? with
    | some existing => .ok (σins, (some existing.id, false))
    | none =>
      if σins.txns.any (fun t => decide (t.hash =
          some (generate_transaction_hash (c.date.getD now) c.amount c.description
            c.card))) then
        match (σins.txns.filter (fun t => decide (t.hash =
            some (generate_transaction_hash (c.date.getD now) c.amount c.description
              c.card)))).head? with
        | some existing => .ok (σins, (some existing.id, false))
        | none => .ok (σins, (none, false))
      else
        .ok ({ σins with
                txns := σins.txns ++
                  [{ id := σins.nextTxnId, type := c.type, card := c.card,
                     category := c.category, description := pyStrip c.description,
                     amount := c.amount, timestamp := c.date.getD now,
                     hash := some (generate_transaction_hash (c.date.getD now) c.amount
                       c.description c.card),
                     importSource := c.importSource,
                     importMetadata := some (c.metadata.getD "\x7b\x7d") }],
                nextTxnId := σins.nextTxnId + 1 },
             (some σins.nextTxnId, true))

/-- One dict of the `import_transactions` input batch; a missing key is
`none`. -/
structure BatchRecord where
  type : Option String
  description : Option String
  amount : Option Int
  date : Option DateTime
  card : Option String
  category : Option String
  metadata : Option String
deriving DecidableEq, Repr

/-- The statistics dict returned by `import_transactions`. -/
structure ImportStats where
  total : Nat
  imported : Nat
  duplicates : Nat
  errors : Nat
deriving DecidableEq, Repr

/-- The body of the `for txn_data in transactions` loop of
`import_transactions`: `txn_data["description"]` / `txn_data["amount"]`
raise `KeyError` when absent, `.get` calls default the other keys, and the
item is handed to `add_transaction_safe` (sequentially: the same store on
both sides). -/
def importItem (σ : Store) (now : DateTime) (source : String) (r : BatchRecord) :
    Except String (Store × Bool) :=
  match r.description, r.amount with
  | some desc, some amt =>
    (add_transaction_safe σ σ now
      { type := r.type.getD "card", description := desc, amount := amt,
        date := r.date, card := r.card, category := r.category,
        importSource := source, metadata := r.metadata }).map
      (fun p => (p.1, p.2.2))
  | none, _ => .error "KeyError: description"
  | some _, none => .error "KeyError: amount"

/-- One iteration of the `import_transactions` loop: on success bump
`imported` or `duplicates` by `is_new`; on any exception bump `errors` and
keep going with the unchanged store. -/
def importStep (now : DateTime) (import_source : String) (acc : Store × ImportStats)
    (r : BatchRecord) : Store × ImportStats :=
  match importItem acc.1 now import_source r with
  | .ok (σ', true) => (σ', { acc.2 with imported := acc.2.imported + 1 })
  | .ok (σ', false) => (σ', { acc.2 with duplicates := acc.2.duplicates + 1 })
  | .error _ => (acc.1, { acc.2 with errors := acc.2.errors + 1 })

/-- `budget/budget.py::Budget.import_transactions`: processes the batch in
input order, counting `imported` / `duplicates` on success by `is_new`, and
catching any per-item exception into `errors` (the source logs and
continues; it never re-raises). -/
def import_transactions (σ : Store) (now : DateTime) (transactions : List BatchRecord)
    (import_source : String) : Store × ImportStats :=
  transactions.foldl (importStep now import_source)
    (σ, { total := transactions.length, imported := 0, duplicates := 0, errors := 0 })

/-- `budget/budget.py::Budget.set_spending_limit`: validates the period and
then unconditionally inserts a new `SpendingLimit` row. -/
def set_spending_limit (σ : Store) (limit_amount : Int) (period : String)
    (category source : Option String) : Except String Store :=
  if ¬(period = "daily" ∨ period = "weekly" ∨ period = "monthly" ∨ period = "yearly") then
    .error "Period must be daily, weekly, monthly, or yearly"
  else
    let limit : SpendingLimit :=
      { id := σ.nextLimitId, category := category, source := source,
        limit_amount := limit_amount, period := period }
    .ok { σ with limits := σ.limits ++ [limit], nextLimitId := σ.nextLimitId + 1 }

/-- The result dict of `Budget.check_spending_limit` (no percentage field). -/
structure CheckResult where
  spent : Int
  limit : Int
  exceeded : Bool
  remaining : Int
deriving DecidableEq, Repr

/-- The limit-row filter of `Budget.check_spending_limit`: always by period,
and by category / source only when the argument is truthy. -/
def limitRowMatch (category source : Option String) (period : String)
    (l : SpendingLimit) : Bool :=
  decide (l.period = period) &&
  (if truthy category then decide (l.category = category) else true) &&
  (if truthy source then decide (l.source = source) else true)

/-- The transaction filter shared by both `check_spending_limit`
implementations: category when truthy, and source as the cash marker or a
card name when truthy. -/
def txnRowMatch (category source : Option String) (t : Txn) : Bool :=
  (if truthy category then decide (t.category = category) else true) &&
  (if truthy source then
    (if source = some "cash" then decide (t.type = "cash") else decide (t.card = source))
   else true)

/-- `budget/budget.py::Budget.check_spending_limit`: finds the first limit
row passing `limitRowMatch`, returns the all-zero dict when none matches,
and otherwise sums amounts of transactions with `timestamp >= start_date`
(no upper bound), with `remaining = max(0, limit - spent)`.  Any period
other than daily/weekly/monthly falls into the yearly branch. -/
def check_spending_limit (σ : Store) (now : DateTime) (category source : Option String)
    (period : String) : CheckResult :=
  match (σ.limits.filter (limitRowMatch category source period)).head? with
  | none => { spent := 0, limit := 0, exceeded := false, remaining := 0 }
  | some limit =>
    let start : DateTime :=
      if period = "daily" then ⟨now.date, Time.min⟩
      else if period = "weekly" then ⟨now.date.subDays now.date.weekday, Time.min⟩
      else if period = "monthly" then ⟨⟨now.date.year, now.date.month, 1⟩, Time.min⟩
      else ⟨⟨now.date.year, 1, 1⟩, Time.min⟩
    let spent := sumAmounts (σ.txns.filter (fun t =>
      DateTime.leB start t.timestamp && txnRowMatch category source t))
    { spent := spent, limit := limit.limit_amount,
      exceeded := decide (limit.limit_amount < spent),
      remaining := max 0 (limit.limit_amount - spent) }

end Budget

/-- The period window computation of
`budget/core/limits.py::LimitManager.check_spending_limit`: `today` is
`datetime.utcnow().date()`; the monthly end is
`(start + timedelta(days=32)).replace(day=1) - timedelta(days=1)` combined
with `datetime.max.time()`; an unrecognised period yields `None` (the
source's final `else: return None`). -/
def periodWindow (today : Date) (period : String) : Option (DateTime × DateTime) :=
  if period = "monthly" then
    some (⟨⟨today.year, today.month, 1⟩, Time.min⟩,
          ⟨Date.prev ((Date.addDays ⟨today.year, today.month, 1⟩ 32).replaceDay 1), Time.max⟩)
  else if period = "weekly" then
    let s := today.subDays today.weekday
    some (⟨s, Time.min⟩, ⟨s.addDays 6, Time.max⟩)
  else if period = "daily" then
    some (⟨today, Time.min⟩, ⟨today, Time.max⟩)
  else if period = "yearly" then
    some (⟨⟨today.year, 1, 1⟩, Time.min⟩, ⟨⟨today.year, 12, 31⟩, Time.max⟩)
  else none

namespace LimitManager

/-- The exact-triple limit lookup of both `LimitManager` entry points:
`filter_by(category=category, source=source, period=period)` compares each
column against the given value, with `None` matching only SQL NULL. -/
def limitTripleMatch (category source : Option String) (period : String)
    (l : SpendingLimit) : Bool :=
  decide (l.category = category) && decide (l.source = source) && decide (l.period = period)

/-- `budget/core/limits.py::LimitManager.set_spending_limit`: validates
amount and period, then updates the existing row for the exact
(category, source, period) triple in place, or inserts a new row when none
exists. -/
def set_spending_limit (σ : Store) (limit_amount : Int) (period : String)
    (category source : Option String) : Except String Store :=
  if limit_amount ≤ 0 then .error "Limit amount must be positive"
  else if ¬(period = "daily" ∨ period = "weekly" ∨ period = "monthly" ∨ period = "yearly") then
    .error "Period must be daily, weekly, monthly, or yearly"
  else
    match (σ.limits.filter (limitTripleMatch category source period)).head? with
    | some l =>
      .ok { σ with limits :=
        σ.limits.map (fun l' => if l'.id = l.id then { l' with limit_amount := limit_amount } else l') }
    | none =>
      let limit : SpendingLimit :=
        { id := σ.nextLimitId, category := category, source := source,
          limit_amount := limit_amount, period := period }
      .ok { σ with limits := σ.limits ++ [limit], nextLimitId := σ.nextLimitId + 1 }

/-- The result dict of `LimitManager.check_spending_limit`. -/
structure CheckResult where
  limit : Int
  spent : Int
  remaining : Int
  percentage : ℚ
  exceeded : Bool
deriving DecidableEq, Repr

/-- `budget/core/limits.py::LimitManager.check_spending_limit`: exact-triple
lookup (returning `none` when no policy exists), period window from
`periodWindow`, spend summed over `start_date <= timestamp <= end_date`
with the truthy category/source filters, `remaining = limit - spent`,
`percentage = spent / limit * 100` when the limit is positive, and
`exceeded = spent > limit`. -/
def check_spending_limit (σ : Store) (today : Date) (category source : Option String)
    (period : String) : Option CheckResult :=
  match (σ.limits.filter (limitTripleMatch category source period)).head? with
  | none => none
  | some limit =>
    match periodWindow today period with
    | none => none
    | some (startDT, endDT) =>
      let spent := sumAmounts (σ.txns.filter (fun t =>
        DateTime.leB startDT t.timestamp && DateTime.leB t.timestamp endDT &&
        Budget.txnRowMatch category source t))
      some { limit := limit.limit_amount, spent := spent,
             remaining := limit.limit_amount - spent,
             percentage :=
               if 0 < limit.limit_amount then
                 (spent : ℚ) / (limit.limit_amount : ℚ) * 100
               else 0,
             exceeded := decide (limit.limit_amount < spent) }

end LimitManager

/-! ## Helper lemmas -/

/-- The head of a filtered list exists exactly when some element satisfies
the predicate. -/
theorem head_filter_isSome {α : Type} (p : α → Bool) (l : List α) :
    ((l.filter p).head?).isSome = l.any p := by
  induction l with
  | nil => rfl
  | cons a t ih =>
    by_cases h : p a = true
    · simp [List.filter_cons, h]
    · simp only [List.filter_cons, h, if_neg, Bool.false_eq_true, ite_false, List.any_cons, h,
        Bool.false_or]
      exact ih

/-- `importStep` preserves `total` and grows exactly one of the three
outcome counters. -/
theorem importStep_counts (now : DateTime) (src : String) (acc : Store × Budget.ImportStats)
    (r : Budget.BatchRecord) :
    (Budget.importStep now src acc r).2.total = acc.2.total ∧
    (Budget.importStep now src acc r).2.imported + (Budget.importStep now src acc r).2.duplicates
      + (Budget.importStep now src acc r).2.errors
      = acc.2.imported + acc.2.duplicates + acc.2.errors + 1 := by
  unfold Budget.importStep
  rcases h : Budget.importItem acc.1 now src r with e | ⟨σ', b⟩
  · simp only [h]
    exact ⟨by trivial, by omega⟩
  · cases b <;> simp only [h] <;> exact ⟨by trivial, by omega⟩

/-- Folding `importStep` preserves `total` and adds the list length to the
counter sum. -/
theorem importFold_counts (now : DateTime) (src : String) :
    ∀ (records : List Budget.BatchRecord) (acc : Store × Budget.ImportStats),
    (records.foldl (Budget.importStep now src) acc).2.total = acc.2.total ∧
    (records.foldl (Budget.importStep now src) acc).2.imported
      + (records.foldl (Budget.importStep now src) acc).2.duplicates
      + (records.foldl (Budget.importStep now src) acc).2.errors
      = acc.2.imported + acc.2.duplicates + acc.2.errors + records.length := by
  intro records
  induction records with
  | nil => intro acc; simp
  | cons r rs ih =>
    intro acc
    have hstep := importStep_counts now src acc r
    have hrec := ih (Budget.importStep now src acc r)
    simp only [List.foldl_cons, List.length_cons]
    constructor
    · rw [hrec.1, hstep.1]
    · have h1 := hstep.2
      have h2 := hrec.2
      omega

/-! ## Claim C4 -/

/-- C4: for every input list, `import_transactions` returns statistics with
`total` equal to the input length and `imported + duplicates + errors =
total`; no per-item failure escapes the batch (the function is total and
returns the statistics record for every input). -/
theorem import_stats_invariant (σ : Store) (now : DateTime)
    (records : List Budget.BatchRecord) (src : String) :
    (Budget.import_transactions σ now records src).2.total = records.length ∧
    (Budget.import_transactions σ now records src).2.imported
      + (Budget.import_transactions σ now records src).2.duplicates
      + (Budget.import_transactions σ now records src).2.errors
      = (Budget.import_transactions σ now records src).2.total := by
  have h := importFold_counts now src records
    (σ, { total := records.length, imported := 0, duplicates := 0, errors := 0 })
  unfold Budget.import_transactions
  refine ⟨h.1, ?_⟩
  rw [h.2, h.1]
  simp

/-! ## Claim C5 -/

/-- C5 counterexample: the `Budget` facade's `check_spending_limit` clamps
`remaining` with `max(0, limit - spent)`: with a monthly limit of 100.00 and
110.00 spent in the current month it reports `remaining = 0`, not `-10.00`
(and its result carries no percentage field at all), contradicting the
claimed `remaining = limit - spent`. -/
theorem facade_remaining_clamped :
    (Budget.check_spending_limit
      { txns := [⟨1, "cash", none, none, "groceries", 11000,
                  ⟨⟨2025, 6, 10⟩, ⟨12, 0, 0, 0⟩⟩, none, "manual", none⟩],
        limits := [⟨1, none, none, 10000, "monthly"⟩],
        nextTxnId := 2, nextLimitId := 2 }
      ⟨⟨2025, 6, 15⟩, ⟨12, 0, 0, 0⟩⟩ none none "monthly").spent = 11000 ∧
    (Budget.check_spending_limit
      { txns := [⟨1, "cash", none, none, "groceries", 11000,
                  ⟨⟨2025, 6, 10⟩, ⟨12, 0, 0, 0⟩⟩, none, "manual", none⟩],
        limits := [⟨1, none, none, 10000, "monthly"⟩],
        nextTxnId := 2, nextLimitId := 2 }
      ⟨⟨2025, 6, 15⟩, ⟨12, 0, 0, 0⟩⟩ none none "monthly").limit = 10000 ∧
    (Budget.check_spending_limit
      { txns := [⟨1, "cash", none, none, "groceries", 11000,
                  ⟨⟨2025, 6, 10⟩, ⟨12, 0, 0, 0⟩⟩, none, "manual", none⟩],
        limits := [⟨1, none, none, 10000, "monthly"⟩],
        nextTxnId := 2, nextLimitId := 2 }
      ⟨⟨2025, 6, 15⟩, ⟨12, 0, 0, 0⟩⟩ none none "monthly").remaining = 0 := by
  decide

/-- C5 (amended to the core implementation): whenever
`LimitManager.check_spending_limit` finds a matching policy, its result
satisfies `remaining = limit - spent` (negative when overspent),
`exceeded = spent > limit`, and `percentage = spent / limit * 100` for a
positive limit. -/
theorem limit_check_result_formula (σ : Store) (today : Date) (cat src : Option String)
    (period : String) (r : LimitManager.CheckResult)
    (h : LimitManager.check_spending_limit σ today cat src period = some r) :
    r.remaining = r.limit - r.spent ∧ r.exceeded = decide (r.limit < r.spent) ∧
    (0 < r.limit → r.percentage = (r.spent : ℚ) / (r.limit : ℚ) * 100) := by
  unfold LimitManager.check_spending_limit at h
  rcases hfind : (σ.limits.filter (LimitManager.limitTripleMatch cat src period)).head? with _ | l
  · rw [hfind] at h; exact absurd h (by simp)
  · rw [hfind] at h
    rcases hw : periodWindow today period with _ | ⟨s, e⟩
    · rw [hw] at h; exact absurd h (by simp)
    · rw [hw] at h
      have hx := (Option.some.injEq _ _).mp h
      subst hx
      refine ⟨rfl, rfl, fun hp => ?_⟩
      simp only at hp ⊢
      rw [if_pos hp]

/-- The store of the spec's walk-through limit scenario: a monthly Food
policy of 100.00 with Food transactions of 30.00 + 40.00 + 40.00 inside
June 2025. -/
def limitScenarioStore : Store :=
  { txns := [⟨1, "cash", none, some "Food", "a", 3000,
              ⟨⟨2025, 6, 3⟩, ⟨9, 0, 0, 0⟩⟩, none, "manual", none⟩,
             ⟨2, "cash", none, some "Food", "b", 4000,
              ⟨⟨2025, 6, 7⟩, ⟨9, 0, 0, 0⟩⟩, none, "manual", none⟩,
             ⟨3, "card", some "Visa", some "Food", "c", 4000,
              ⟨⟨2025, 6, 12⟩, ⟨9, 0, 0, 0⟩⟩, none, "manual", none⟩],
    limits := [⟨1, some "Food", none, 10000, "monthly"⟩],
    nextTxnId := 4, nextLimitId := 2 }

/-- The result of checking the Food limit in the walk-through scenario. -/
def limitScenarioResult : LimitManager.CheckResult :=
  (LimitManager.check_spending_limit limitScenarioStore ⟨2025, 6, 15⟩ (some "Food") none
    "monthly").getD ⟨0, 0, 0, 0, false⟩

/-- C5 witness: in the walk-through scenario the policy is found and the
returned record satisfies the three formulas. -/
theorem limit_check_result_formula_witness :
    limitScenarioResult.remaining = limitScenarioResult.limit - limitScenarioResult.spent ∧
    limitScenarioResult.exceeded = decide (limitScenarioResult.limit < limitScenarioResult.spent) ∧
    (0 < limitScenarioResult.limit →
      limitScenarioResult.percentage =
        (limitScenarioResult.spent : ℚ) / (limitScenarioResult.limit : ℚ) * 100) := by
  have hsome : (LimitManager.check_spending_limit limitScenarioStore ⟨2025, 6, 15⟩ (some "Food")
      none "monthly").isSome = true := by decide
  have h : LimitManager.check_spending_limit limitScenarioStore ⟨2025, 6, 15⟩ (some "Food") none
      "monthly" = some limitScenarioResult := by
    unfold limitScenarioResult
    rcases ho : LimitManager.check_spending_limit limitScenarioStore ⟨2025, 6, 15⟩ (some "Food")
        none "monthly" with _ | x
    · rw [ho] at hsome; exact absurd hsome (by simp)
    · rfl
  exact limit_check_result_formula limitScenarioStore ⟨2025, 6, 15⟩ (some "Food") none "monthly"
    limitScenarioResult h

/-! ## Claim C6 -/

/-- C6 counterexample: the `Budget` facade treats a `None` category/source
filter as a wildcard, not as "field unset": with only a `Food`-scoped
monthly policy stored (so no policy matches the exact triple
`(None, None, monthly)`), the facade still reports that policy's limit of
100.00 instead of the claimed distinguished no-policy result. -/
theorem facade_lookup_ignores_none_filters :
    (List.filter (LimitManager.limitTripleMatch none none "monthly")
      [⟨1, some "Food", none, 10000, "monthly"⟩] = []) ∧
    (Budget.check_spending_limit
      { txns := [], limits := [⟨1, some "Food", none, 10000, "monthly"⟩],
        nextTxnId := 1, nextLimitId := 2 }
      ⟨⟨2025, 6, 15⟩, ⟨12, 0, 0, 0⟩⟩ none none "monthly").limit = 10000 := by
  decide

/-- C6 (amended to the core implementation):
`LimitManager.check_spending_limit` answers `some` exactly when a policy
matching the exact (category, source, period) triple exists (with `None`
matching only an unset column) and the period is recognised; otherwise it
answers the distinguished `none`, which no zero-spend policy result can
equal. -/
theorem limit_lookup_exact_triple (σ : Store) (today : Date) (cat src : Option String)
    (period : String) :
    (LimitManager.check_spending_limit σ today cat src period).isSome =
      (σ.limits.any (LimitManager.limitTripleMatch cat src period) &&
        (periodWindow today period).isSome) := by
  unfold LimitManager.check_spending_limit
  rw [← head_filter_isSome]
  rcases hfind : (σ.limits.filter (LimitManager.limitTripleMatch cat src period)).head? with _ | l
  · simp
  · simp only [hfind, Option.isSome_some, Bool.true_and]
    rcases hw : periodWindow today period with _ | ⟨s, e⟩
    · simp
    · simp

/-! ## Claim C7 -/

/-- C7 counterexample: the `Budget` facade's monthly window has no upper
bound (`timestamp >= start_date` only): checking on 2025-12-31 counts a
transaction dated 2026-01-15 — a timestamp strictly after the claimed
window end 2025-12-31 23:59:59.999999 — into `spent`. -/
theorem facade_monthly_window_unbounded :
    (Budget.check_spending_limit
      { txns := [⟨1, "cash", none, none, "future", 5000,
                  ⟨⟨2026, 1, 15⟩, ⟨12, 0, 0, 0⟩⟩, none, "manual", none⟩],
        limits := [⟨1, none, none, 10000, "monthly"⟩],
        nextTxnId := 2, nextLimitId := 2 }
      ⟨⟨2025, 12, 31⟩, ⟨12, 0, 0, 0⟩⟩ none none "monthly").spent = 5000 ∧
    DateTime.leB ⟨⟨2026, 1, 15⟩, ⟨12, 0, 0, 0⟩⟩ ⟨⟨2025, 12, 31⟩, Time.max⟩ = false := by
  decide

/-! ## Claim C8 -/

/-- C8 counterexample: calling the `Budget` facade's `set_spending_limit`
twice for the same (category, source, period) triple inserts two rows for
that triple instead of replacing the first in place. -/
theorem facade_set_limit_duplicates_triple :
    ((Budget.set_spending_limit emptyStore 10000 "monthly" none none).toOption.bind
      (fun σa => (Budget.set_spending_limit σa 20000 "monthly" none none).toOption)).map
      (fun σb => (σb.limits.filter (LimitManager.limitTripleMatch none none "monthly")).length)
      = some 2 := by
  decide

/-- At most one policy row per (category, source, period) triple. -/
def UniqueTriples (ls : List SpendingLimit) : Prop :=
  ls.Pairwise (fun a b =>
    ¬(a.category = b.category ∧ a.source = b.source ∧ a.period = b.period))

/-- C8 (amended to the core implementation): starting from a store whose
policies have pairwise-distinct (category, source, period) triples,
`LimitManager.set_spending_limit` preserves that uniqueness; and when a
policy for the requested triple already exists, the call keeps the number
of policy rows unchanged and updates the existing row in place (same id and
scope, new amount). -/
theorem set_limit_unique_triple (σ σ' : Store) (amt : Int) (period : String)
    (cat src : Option String) (hInv : UniqueTriples σ.limits)
    (h : LimitManager.set_spending_limit σ amt period cat src = .ok σ') :
    UniqueTriples σ'.limits ∧
    (σ.limits.any (LimitManager.limitTripleMatch cat src period) = true →
      σ'.limits.length = σ.limits.length ∧
      ∀ l ∈ σ.limits, LimitManager.limitTripleMatch cat src period l = true →
        ∃ l' ∈ σ'.limits, l'.id = l.id ∧ l'.limit_amount = amt ∧
          l'.category = l.category ∧ l'.source = l.source ∧ l'.period = l.period) := by
  unfold LimitManager.set_spending_limit at h
  split at h
  · exact absurd h (by simp)
  split at h
  · exact absurd h (by simp)
  rcases hfind : (σ.limits.filter (LimitManager.limitTripleMatch cat src period)).head? with _ | l0
  all_goals rw [hfind] at h
  · -- no existing row: a fresh row is appended
    have hσ' : σ'.limits =
        σ.limits ++ [{ id := σ.nextLimitId, category := cat, source := src,
                       limit_amount := amt, period := period }] := by
      have hinj := Except.ok.inj h
      rw [← hinj]
    have hnone : ∀ a ∈ σ.limits, LimitManager.limitTripleMatch cat src period a = false := by
      intro a ha
      by_contra hc
      have hpa : LimitManager.limitTripleMatch cat src period a = true := by
        cases hx : LimitManager.limitTripleMatch cat src period a
        · exact absurd hx hc
        · rfl
      have : ((σ.limits.filter (LimitManager.limitTripleMatch cat src period)).head?).isSome
          = true := by
        rw [head_filter_isSome]
        exact List.any_eq_true.mpr ⟨a, ha, hpa⟩
      rw [hfind] at this
      exact absurd this (by simp)
    constructor
    · rw [hσ']
      unfold UniqueTriples
      rw [List.pairwise_append]
      refine ⟨hInv, by simp, ?_⟩
      intro a ha b hb
      simp only [List.mem_singleton] at hb
      subst hb
      intro hcl
      have := hnone a ha
      unfold LimitManager.limitTripleMatch at this
      simp only [hcl.1, hcl.2.1, hcl.2.2] at this
      simp at this
    · intro hAny
      obtain ⟨a, ha, hpa⟩ := List.any_eq_true.mp hAny
      rw [hnone a ha] at hpa
      exact absurd hpa (by simp)
  · -- existing row: updated in place by id
    have hσ' : σ'.limits =
        σ.limits.map (fun l' => if l'.id = l0.id then { l' with limit_amount := amt } else l') := by
      have hinj := Except.ok.inj h
      rw [← hinj]
    have hfields : ∀ l' : SpendingLimit,
        ((if l'.id = l0.id then { l' with limit_amount := amt } else l') : SpendingLimit).category
            = l'.category ∧
        ((if l'.id = l0.id then { l' with limit_amount := amt } else l') : SpendingLimit).source
            = l'.source ∧
        ((if l'.id = l0.id then { l' with limit_amount := amt } else l') : SpendingLimit).period
            = l'.period := by
      intro l'
      by_cases hid : l'.id = l0.id <;> simp [hid]
    have hl0mem : l0 ∈ σ.limits ∧ LimitManager.limitTripleMatch cat src period l0 = true := by
      have hmf : l0 ∈ σ.limits.filter (LimitManager.limitTripleMatch cat src period) :=
        List.mem_of_mem_head? hfind
      exact ⟨(List.mem_filter.mp hmf).1, (List.mem_filter.mp hmf).2⟩
    constructor
    · rw [hσ']
      unfold UniqueTriples at hInv ⊢
      rw [List.pairwise_map]
      refine hInv.imp ?_
      intro a b hab hcl
      refine hab ?_
      obtain ⟨h1, h2, h3⟩ := hcl
      rw [(hfields a).1, (hfields b).1] at h1
      rw [(hfields a).2.1, (hfields b).2.1] at h2
      rw [(hfields a).2.2, (hfields b).2.2] at h3
      exact ⟨h1, h2, h3⟩
    · intro _
      constructor
      · rw [hσ', List.length_map]
      · intro l hl hmatch
        simp only [LimitManager.limitTripleMatch, Bool.and_eq_true, decide_eq_true_eq] at hmatch
        have hmatch0 := hl0mem.2
        simp only [LimitManager.limitTripleMatch, Bool.and_eq_true, decide_eq_true_eq] at hmatch0
        have heq : l = l0 := by
          by_contra hne
          have hsym : Symmetric (fun a b : SpendingLimit =>
              ¬(a.category = b.category ∧ a.source = b.source ∧ a.period = b.period)) := by
            intro a b hab hcl
            exact hab ⟨hcl.1.symm, hcl.2.1.symm, hcl.2.2.symm⟩
          refine (hInv.forall hsym) hl hl0mem.1 hne ?_
          exact ⟨hmatch.1.1.trans hmatch0.1.1.symm,
                 hmatch.1.2.trans hmatch0.1.2.symm,
                 hmatch.2.trans hmatch0.2.symm⟩
        subst heq
        refine ⟨{ l with limit_amount := amt }, ?_, rfl, rfl, rfl, rfl, rfl⟩
        rw [hσ']
        exact List.mem_map.mpr ⟨l, hl, by simp⟩

/-- C8 witness: re-setting the (None, None, monthly) limit from 50.00 to
70.00 keeps a single policy row, updated in place. -/
theorem set_limit_unique_triple_witness :
    UniqueTriples
      ({ txns := [], limits := [⟨1, none, none, 5000, "monthly"⟩],
         nextTxnId := 1, nextLimitId := 2 } : Store).limits ∧
    (UniqueTriples
      ({ txns := [], limits := [⟨1, none, none, 7000, "monthly"⟩],
         nextTxnId := 1, nextLimitId := 2 } : Store).limits ∧
     (({ txns := [], limits := [⟨1, none, none, 5000, "monthly"⟩],
         nextTxnId := 1, nextLimitId := 2 } : Store).limits.any
        (LimitManager.limitTripleMatch none none "monthly") = true →
      ({ txns := [], limits := [⟨1, none, none, 7000, "monthly"⟩],
         nextTxnId := 1, nextLimitId := 2 } : Store).limits.length =
        ({ txns := [], limits := [⟨1, none, none, 5000, "monthly"⟩],
           nextTxnId := 1, nextLimitId := 2 } : Store).limits.length ∧
      ∀ l ∈ ({ txns := [], limits := [⟨1, none, none, 5000, "monthly"⟩],
               nextTxnId := 1, nextLimitId := 2 } : Store).limits,
        LimitManager.limitTripleMatch none none "monthly" l = true →
        ∃ l' ∈ ({ txns := [], limits := [⟨1, none, none, 7000, "monthly"⟩],
                  nextTxnId := 1, nextLimitId := 2 } : Store).limits,
          l'.id = l.id ∧ l'.limit_amount = 7000 ∧
          l'.category = l.category ∧ l'.source = l.source ∧ l'.period = l.period)) :=
  ⟨by unfold UniqueTriples; decide,
   set_limit_unique_triple
     { txns := [], limits := [⟨1, none, none, 5000, "monthly"⟩],
       nextTxnId := 1, nextLimitId := 2 }
     { txns := [], limits := [⟨1, none, none, 7000, "monthly"⟩],
       nextTxnId := 1, nextLimitId := 2 }
     7000 "monthly" none none (by unfold UniqueTriples; decide) (by rfl)⟩

/-! ## Date arithmetic lemmas for the monthly window -/

theorem Date.addDays_add (d : Date) (a b : Nat) :
    d.addDays (a + b) = (d.addDays a).addDays b := by
  induction a generalizing d with
  | zero => rw [Nat.zero_add]; rfl
  | succ n ih =>
    have hr : n + 1 + b = (n + b) + 1 := by omega
    rw [hr]
    show (Date.next d).addDays (n + b) = _
    rw [ih d.next]
    rfl

theorem Date.addDays_le (y m dd n : Nat) (h : dd + n ≤ daysInMonth y m) :
    Date.addDays ⟨y, m, dd⟩ n = ⟨y, m, dd + n⟩ := by
  induction n generalizing dd with
  | zero => rfl
  | succ k ih =>
    have hlt : dd < daysInMonth y m := by omega
    have hnext : Date.next ⟨y, m, dd⟩ = ⟨y, m, dd + 1⟩ := by
      unfold Date.next
      simp [hlt]
    show (Date.next ⟨y, m, dd⟩).addDays k = _
    rw [hnext, ih (dd + 1) (by omega)]
    congr 1
    omega

theorem daysInMonth_bounds (y m : Nat) : 28 ≤ daysInMonth y m ∧ daysInMonth y m ≤ 31 := by
  unfold daysInMonth
  split
  · split <;> omega
  · split <;> omega

theorem Date.next_last (y m : Nat) :
    Date.next ⟨y, m, daysInMonth y m⟩ = if m < 12 then ⟨y, m + 1, 1⟩ else ⟨y + 1, 1, 1⟩ := by
  unfold Date.next
  rw [if_neg]
  exact lt_irrefl _

/-- The source's last-day-of-month computation
`(first_of_month + timedelta(days=32)).replace(day=1) - timedelta(days=1)`
lands exactly on the last day of the current month, for every month length
and across the December-to-January rollover. -/
theorem monthEnd_eq (y m : Nat) (hm1 : 1 ≤ m) (hm2 : m ≤ 12) :
    Date.prev ((Date.addDays ⟨y, m, 1⟩ 32).replaceDay 1) = ⟨y, m, daysInMonth y m⟩ := by
  obtain ⟨hd1, hd2⟩ := daysInMonth_bounds y m
  have h32 : (32 : Nat) = (daysInMonth y m - 1) + ((32 - daysInMonth y m) + 1) := by omega
  rw [h32, Date.addDays_add]
  have hstep1 : Date.addDays ⟨y, m, 1⟩ (daysInMonth y m - 1) = ⟨y, m, daysInMonth y m⟩ := by
    rw [Date.addDays_le y m 1 (daysInMonth y m - 1) (by omega)]
    congr 1
    omega
  rw [hstep1]
  by_cases hm12 : m < 12
  · have hnext : Date.next ⟨y, m, daysInMonth y m⟩ = ⟨y, m + 1, 1⟩ := by
      rw [Date.next_last, if_pos hm12]
    have hrest : Date.addDays ⟨y, m, daysInMonth y m⟩ ((32 - daysInMonth y m) + 1)
        = ⟨y, m + 1, 1 + (32 - daysInMonth y m)⟩ := by
      show (Date.next ⟨y, m, daysInMonth y m⟩).addDays (32 - daysInMonth y m) = _
      rw [hnext]
      exact Date.addDays_le y (m + 1) 1 (32 - daysInMonth y m)
        (by obtain ⟨h1', _⟩ := daysInMonth_bounds y (m + 1); omega)
    rw [hrest]
    unfold Date.replaceDay Date.prev
    simp only
    rw [if_neg (by omega), if_pos (by omega : 1 < m + 1)]
    simp
  · have hm12' : m = 12 := by omega
    subst hm12'
    have hD : daysInMonth y 12 = 31 := by
      unfold daysInMonth
      norm_num
    have hnext : Date.next ⟨y, 12, daysInMonth y 12⟩ = ⟨y + 1, 1, 1⟩ := by
      rw [Date.next_last, if_neg (by omega)]
    have hrest : Date.addDays ⟨y, 12, daysInMonth y 12⟩ ((32 - daysInMonth y 12) + 1)
        = ⟨y + 1, 1, 2⟩ := by
      rw [hD]
      show (Date.next ⟨y, 12, 31⟩).addDays (32 - 31) = _
      rw [show (Date.next ⟨y, 12, 31⟩) = ⟨y + 1, 1, 1⟩ from hD ▸ hnext]
      rw [Date.addDays_le (y + 1) 1 1 1 (by unfold daysInMonth; norm_num)]
    rw [hrest]
    unfold Date.replaceDay Date.prev
    simp only
    rw [if_neg (by omega), if_neg (by omega), hD]
    simp

/-- C7 (amended to the core implementation): for any valid month, the
monthly window of `LimitManager.check_spending_limit` runs from the first
day of the current month at 00:00:00.000000 to the last day of the current
month at 23:59:59.999999, inclusive — handling short months and the
December rollover — and whenever a policy is found, `spent` is exactly the
filtered sum over transactions with timestamps inside that window. -/
theorem monthly_window_correct (y m d : Nat) (σ : Store) (cat src : Option String)
    (r : LimitManager.CheckResult) (hm1 : 1 ≤ m) (hm2 : m ≤ 12)
    (h : LimitManager.check_spending_limit σ ⟨y, m, d⟩ cat src "monthly" = some r) :
    periodWindow ⟨y, m, d⟩ "monthly" =
      some (⟨⟨y, m, 1⟩, Time.min⟩, ⟨⟨y, m, daysInMonth y m⟩, Time.max⟩) ∧
    r.spent = sumAmounts (σ.txns.filter (fun t =>
      DateTime.leB ⟨⟨y, m, 1⟩, Time.min⟩ t.timestamp &&
      DateTime.leB t.timestamp ⟨⟨y, m, daysInMonth y m⟩, Time.max⟩ &&
      Budget.txnRowMatch cat src t)) := by
  have hwin0 : periodWindow ⟨y, m, d⟩ "monthly" =
      some (⟨⟨y, m, 1⟩, Time.min⟩,
            ⟨Date.prev ((Date.addDays ⟨y, m, 1⟩ 32).replaceDay 1), Time.max⟩) := rfl
  have hwin : periodWindow ⟨y, m, d⟩ "monthly" =
      some (⟨⟨y, m, 1⟩, Time.min⟩, ⟨⟨y, m, daysInMonth y m⟩, Time.max⟩) := by
    rw [hwin0, monthEnd_eq y m hm1 hm2]
  refine ⟨hwin, ?_⟩
  unfold LimitManager.check_spending_limit at h
  rcases hfind : (σ.limits.filter (LimitManager.limitTripleMatch cat src "monthly")).head?
    with _ | l0
  · rw [hfind] at h
    exact absurd h (by simp)
  · rw [hfind, hwin] at h
    have hx := (Option.some.injEq _ _).mp h
    rw [← hx]

/-- The February-2025 window scenario: a (None, None, monthly) policy, one
transaction inside February and one on 1 March at midnight. -/
def febScenarioStore : Store :=
  { txns := [⟨1, "cash", none, none, "inside", 3000,
              ⟨⟨2025, 2, 10⟩, ⟨12, 0, 0, 0⟩⟩, none, "manual", none⟩,
             ⟨2, "cash", none, none, "outside", 4000,
              ⟨⟨2025, 3, 1⟩, ⟨0, 0, 0, 0⟩⟩, none, "manual", none⟩],
    limits := [⟨1, none, none, 10000, "monthly"⟩],
    nextTxnId := 3, nextLimitId := 2 }

/-- The result of the February-2025 monthly check. -/
def febScenarioResult : LimitManager.CheckResult :=
  (LimitManager.check_spending_limit febScenarioStore ⟨2025, 2, 15⟩ none none
    "monthly").getD ⟨0, 0, 0, 0, false⟩

/-- C7 witness: on 2025-02-15 the monthly window ends 2025-02-28
23:59:59.999999, and only the February transaction (30.00) is counted — the
1 March one contributes nothing. -/
theorem monthly_window_correct_witness :
    daysInMonth 2025 2 = 28 ∧
    febScenarioResult.spent = 3000 ∧
    (periodWindow ⟨2025, 2, 15⟩ "monthly" =
      some (⟨⟨2025, 2, 1⟩, Time.min⟩, ⟨⟨2025, 2, daysInMonth 2025 2⟩, Time.max⟩) ∧
     febScenarioResult.spent = sumAmounts (febScenarioStore.txns.filter (fun t =>
      DateTime.leB ⟨⟨2025, 2, 1⟩, Time.min⟩ t.timestamp &&
      DateTime.leB t.timestamp ⟨⟨2025, 2, daysInMonth 2025 2⟩, Time.max⟩ &&
      Budget.txnRowMatch none none t))) := by
  refine ⟨by decide, by decide, ?_⟩
  have hsome : (LimitManager.check_spending_limit febScenarioStore ⟨2025, 2, 15⟩ none none
      "monthly").isSome = true := by decide
  have h : LimitManager.check_spending_limit febScenarioStore ⟨2025, 2, 15⟩ none none
      "monthly" = some febScenarioResult := by
    unfold febScenarioResult
    rcases ho : LimitManager.check_spending_limit febScenarioStore ⟨2025, 2, 15⟩ none none
        "monthly" with _ | x
    · rw [ho] at hsome
      exact absurd hsome (by simp)
    · rfl
  exact monthly_window_correct 2025 2 15 febScenarioStore none none febScenarioResult
    (by decide) (by decide) h

/-! ## Claim C1 -/

/-- C1: `add_transaction_safe` is idempotent under fingerprint-equivalent
inputs.  Starting from a store holding no transaction with the candidate's
fingerprint, the first call returns a fresh id with `is_new = true` and
persists exactly one transaction; a second call with an equivalent
candidate — same calendar day regardless of time-of-day, same amount after
2-decimal formatting, same description after lower-casing and trimming,
same normalised card-or-cash account — returns the same id with
`is_new = false` and leaves the store unchanged. -/
theorem safe_add_idempotent (σ : Store) (now : DateTime) (c c' : Candidate)
    (hdesc : ¬(pyStrip c.description = "")) (hamt : ¬(c.amount ≤ 0))
    (htype : c.type = "cash" ∨ c.type = "card")
    (hdesc' : ¬(pyStrip c'.description = "")) (hamt' : ¬(c'.amount ≤ 0))
    (htype' : c'.type = "cash" ∨ c'.type = "card")
    (hday : (c'.date.getD now).date = (c.date.getD now).date)
    (hamount : fmtAmount2 c'.amount = fmtAmount2 c.amount)
    (hdescn : pyStrip (pyLower c'.description) = pyStrip (pyLower c.description))
    (hcard : normCard c'.card = normCard c.card)
    (hfresh : ∀ t ∈ σ.txns, t.hash ≠
      some (generate_transaction_hash (c.date.getD now) c.amount c.description c.card)) :
    ∃ σ1, Budget.add_transaction_safe σ σ now c = .ok (σ1, (some σ.nextTxnId, true)) ∧
      σ1.txns.length = σ.txns.length + 1 ∧
      Budget.add_transaction_safe σ1 σ1 now c' = .ok (σ1, (some σ.nextTxnId, false)) := by
  set h0 := generate_transaction_hash (c.date.getD now) c.amount c.description c.card with hh0
  have hh' : generate_transaction_hash (c'.date.getD now) c'.amount c'.description c'.card
      = h0 := by
    rw [hh0]
    unfold generate_transaction_hash
    rw [hday, hamount, hdescn, hcard]
  have hfilter : σ.txns.filter (fun t => decide (t.hash = some h0)) = [] :=
    List.filter_eq_nil_iff.mpr (fun t ht => by simpa using hfresh t ht)
  have hany : σ.txns.any (fun t => decide (t.hash = some h0)) = false := by
    have hh := head_filter_isSome (fun t => decide (t.hash = some h0)) σ.txns
    rw [hfilter] at hh
    exact hh.symm
  refine ⟨{ σ with
            txns := σ.txns ++
              [{ id := σ.nextTxnId, type := c.type, card := c.card,
                 category := c.category, description := pyStrip c.description,
                 amount := c.amount, timestamp := c.date.getD now, hash := some h0,
                 importSource := c.importSource,
                 importMetadata := some (c.metadata.getD "\x7b\x7d") }],
            nextTxnId := σ.nextTxnId + 1 }, ?_, ?_, ?_⟩
  · simp only [Budget.add_transaction_safe, if_neg hdesc, if_neg hamt,
      if_neg (not_not_intro htype), ← hh0, hfilter, List.head?_nil, hany]
    simp
  · simp
  · simp only [Budget.add_transaction_safe, if_neg hdesc', if_neg hamt',
      if_neg (not_not_intro htype'), hh', List.filter_append, hfilter, List.nil_append,
      List.filter_cons, List.filter_nil]
    simp

/-! ## Claim C3 -/

/-- C3: when a concurrent writer commits the same fingerprint between the
dedup lookup (which saw none) and the insert, the rejected insert is not
propagated: `add_transaction_safe` rolls back, re-queries by fingerprint
and returns the racer's id with `is_new = false`, leaving the store as the
racer left it. -/
theorem safe_add_race_returns_existing (σlook σins : Store) (now : DateTime) (c : Candidate)
    (racer : Txn)
    (hdesc : ¬(pyStrip c.description = "")) (hamt : ¬(c.amount ≤ 0))
    (htype : c.type = "cash" ∨ c.type = "card")
    (hmiss : ∀ t ∈ σlook.txns, t.hash ≠
      some (generate_transaction_hash (c.date.getD now) c.amount c.description c.card))
    (hrace : σins.txns.filter (fun t => decide (t.hash =
      some (generate_transaction_hash (c.date.getD now) c.amount c.description c.card)))
      = [racer]) :
    Budget.add_transaction_safe σlook σins now c = .ok (σins, (some racer.id, false)) := by
  set h0 := generate_transaction_hash (c.date.getD now) c.amount c.description c.card with hh0
  have hfilter : σlook.txns.filter (fun t => decide (t.hash = some h0)) = [] :=
    List.filter_eq_nil_iff.mpr (fun t ht => by simpa using hmiss t ht)
  have hany : σins.txns.any (fun t => decide (t.hash = some h0)) = true := by
    have hh := head_filter_isSome (fun t => decide (t.hash = some h0)) σins.txns
    rw [hrace] at hh
    exact hh.symm
  simp only [Budget.add_transaction_safe, if_neg hdesc, if_neg hamt,
    if_neg (not_not_intro htype), ← hh0, hfilter, List.head?_nil, hany, hrace]
  simp

/-- The timestamp taken as "now" in the concrete safe-add scenarios. -/
def demoNow : DateTime := ⟨⟨2025, 6, 2⟩, ⟨0, 0, 0, 0⟩⟩

/-- A concrete import candidate: card purchase of 5.50 on the morning of
2025-06-01. -/
def demoCand : Candidate :=
  ⟨"card", "  Coffee ", 550, some ⟨⟨2025, 6, 1⟩, ⟨9, 30, 0, 0⟩⟩, some "Visa", none, "pdf", none⟩

/-- A fingerprint-equivalent variant of `demoCand`: same calendar day at a
different hour, same amount, description differing only in case and
surrounding whitespace, card differing only in case and whitespace. -/
def demoCandEquiv : Candidate :=
  ⟨"card", "coffee", 550, some ⟨⟨2025, 6, 1⟩, ⟨18, 0, 0, 0⟩⟩, some " visa", none, "email", none⟩

/-- C1 witness: on the empty store, `demoCand` is inserted with id 1 and
`is_new = true`; re-adding `demoCandEquiv` returns id 1 with
`is_new = false` and an unchanged store. -/
theorem safe_add_idempotent_witness :
    ((demoCandEquiv.date.getD demoNow).date = (demoCand.date.getD demoNow).date ∧
     fmtAmount2 demoCandEquiv.amount = fmtAmount2 demoCand.amount ∧
     pyStrip (pyLower demoCandEquiv.description) = pyStrip (pyLower demoCand.description) ∧
     normCard demoCandEquiv.card = normCard demoCand.card ∧
     (∀ t ∈ emptyStore.txns, t.hash ≠ some (generate_transaction_hash
       (demoCand.date.getD demoNow) demoCand.amount demoCand.description demoCand.card))) ∧
    (∃ σ1, Budget.add_transaction_safe emptyStore emptyStore demoNow demoCand
        = .ok (σ1, (some 1, true)) ∧
      σ1.txns.length = 1 ∧
      Budget.add_transaction_safe σ1 σ1 demoNow demoCandEquiv
        = .ok (σ1, (some 1, false))) :=
  ⟨by decide,
   safe_add_idempotent emptyStore demoNow demoCand demoCandEquiv
     (by decide) (by decide) (by decide) (by decide) (by decide) (by decide)
     (by decide) (by decide) (by decide) (by decide) (by decide)⟩

/-- The transaction a concurrent writer committed between the lookup and
the insert: it carries exactly `demoCand`'s fingerprint. -/
def racerTxn : Txn :=
  ⟨7, "card", some "visa", none, "coffee", 550, ⟨⟨2025, 6, 1⟩, ⟨10, 0, 0, 0⟩⟩,
   some (generate_transaction_hash ⟨⟨2025, 6, 1⟩, ⟨9, 30, 0, 0⟩⟩ 550 "  Coffee " (some "Visa")),
   "pdf", some "\x7b\x7d"⟩

/-- The store state at insert time: the racer's row is already committed. -/
def racedStore : Store := { txns := [racerTxn], limits := [], nextTxnId := 8, nextLimitId := 1 }

/-- C3 witness: the lookup store is empty, the insert-time store holds the
racer's fingerprint; the call returns the racer's id 7 with
`is_new = false` and does not error. -/
theorem safe_add_race_returns_existing_witness :
    ((∀ t ∈ emptyStore.txns, t.hash ≠ some (generate_transaction_hash
       (demoCand.date.getD demoNow) demoCand.amount demoCand.description demoCand.card)) ∧
     racedStore.txns.filter (fun t => decide (t.hash = some (generate_transaction_hash
       (demoCand.date.getD demoNow) demoCand.amount demoCand.description demoCand.card)))
       = [racerTxn]) ∧
    Budget.add_transaction_safe emptyStore racedStore demoNow demoCand
      = .ok (racedStore, (some 7, false)) :=
  ⟨⟨by decide, by decide⟩,
   safe_add_race_returns_existing emptyStore racedStore demoNow demoCand racerTxn
     (by decide) (by decide) (by decide) (by decide) (by decide)⟩

/-! ## Claim C2 -/

/-- An ingestion operation: a strict add (`Budget.add_transaction`) or a
safe add (`Budget.add_transaction_safe`, sequential). -/
inductive Op where
  | strict (type description : String) (amount : Int) (card category : Option String)
  | safe (c : Candidate)

/-- Run one ingestion operation; a validation error leaves the store
unchanged (the exception aborts before any write). -/
def applyOp (now : DateTime) (σ : Store) (op : Op) : Store :=
  match op with
  | .strict t d a cd ct =>
    match Budget.add_transaction σ now t d a cd ct with
    | .ok (σ', _) => σ'
    | .error _ => σ
  | .safe c =>
    match Budget.add_transaction_safe σ σ now c with
    | .ok (σ', _) => σ'
    | .error _ => σ

/-- Run a sequence of ingestion operations. -/
def runOps (now : DateTime) (σ : Store) (ops : List Op) : Store :=
  ops.foldl (applyOp now) σ

/-- The store's unique constraint on the `hash` column: no two rows share a
non-NULL fingerprint (SQL UNIQUE admits many NULLs). -/
def HashUnique (l : List Txn) : Prop :=
  l.Pairwise (fun a b => ¬(a.hash.isSome = true ∧ a.hash = b.hash))

/-- A successful strict add appends exactly one row, and that row has a
NULL fingerprint. -/
theorem add_transaction_ok_shape (σ : Store) (now : DateTime) (t d : String) (a : Int)
    (cd ct : Option String) (σ' : Store) (i : Nat)
    (h : Budget.add_transaction σ now t d a cd ct = .ok (σ', i)) :
    σ'.txns = σ.txns ++
      [{ id := σ.nextTxnId, type := t, card := cd, category := ct,
         description := pyStrip d, amount := a, timestamp := now, hash := none,
         importSource := "manual", importMetadata := none }] := by
  unfold Budget.add_transaction at h
  split at h
  · exact absurd h (by simp)
  split at h
  · exact absurd h (by simp)
  split at h
  · exact absurd h (by simp)
  have hp := Except.ok.inj h
  have hσ : σ' = { σ with
      txns := σ.txns ++
        [{ id := σ.nextTxnId, type := t, card := cd, category := ct,
           description := pyStrip d, amount := a, timestamp := now, hash := none,
           importSource := "manual", importMetadata := none }],
      nextTxnId := σ.nextTxnId + 1 } := by
    have := congrArg Prod.fst hp
    exact this.symm
  rw [hσ]

/-- A successful sequential safe add either leaves the store unchanged
(duplicate or race path) or appends exactly one row carrying a fingerprint
held by no previous row. -/
theorem add_transaction_safe_ok_shape (σ : Store) (now : DateTime) (c : Candidate)
    (σ' : Store) (r : Option Nat × Bool)
    (h : Budget.add_transaction_safe σ σ now c = .ok (σ', r)) :
    σ' = σ ∨
    ∃ hs, (∀ t ∈ σ.txns, t.hash ≠ some hs) ∧
      σ'.txns = σ.txns ++
        [{ id := σ.nextTxnId, type := c.type, card := c.card, category := c.category,
           description := pyStrip c.description, amount := c.amount,
           timestamp := c.date.getD now, hash := some hs, importSource := c.importSource,
           importMetadata := some (c.metadata.getD "\x7b\x7d") }] := by
  unfold Budget.add_transaction_safe at h
  split at h
  · exact absurd h (by simp)
  split at h
  · exact absurd h (by simp)
  split at h
  · exact absurd h (by simp)
  rcases hfind : (σ.txns.filter (fun t => decide (t.hash =
      some (generate_transaction_hash (c.date.getD now) c.amount c.description c.card)))).head?
    with _ | ex
  all_goals rw [hfind] at h
  · rcases hany : σ.txns.any (fun t => decide (t.hash =
        some (generate_transaction_hash (c.date.getD now) c.amount c.description c.card)))
      with _ | _
    all_goals rw [hany] at h
    · -- fresh insert
      right
      refine ⟨generate_transaction_hash (c.date.getD now) c.amount c.description c.card,
        ?_, ?_⟩
      · intro t ht
        have hna := List.any_eq_false.mp hany t ht
        simpa using hna
      · simp only [Bool.false_eq_true, if_false] at h
        have hp := Except.ok.inj h
        obtain ⟨hσ, -⟩ := (Prod.mk.injEq _ _ _ _).mp hp
        rw [← hσ]
    · -- conflict path: store unchanged (the re-query also sees the rewritten lookup)
      simp only [if_true] at h
      exact Or.inl ((Prod.mk.injEq _ _ _ _).mp (Except.ok.inj h)).1.symm
  · exact Or.inl ((Prod.mk.injEq _ _ _ _).mp (Except.ok.inj h)).1.symm

/-- Appending a row whose fingerprint is NULL or fresh preserves the unique
constraint. -/
theorem hashUnique_append (l : List Txn) (t : Txn) (hInv : HashUnique l)
    (hfresh : t.hash = none ∨ ∃ hs, t.hash = some hs ∧ ∀ a ∈ l, a.hash ≠ some hs) :
    HashUnique (l ++ [t]) := by
  unfold HashUnique at hInv ⊢
  rw [List.pairwise_append]
  refine ⟨hInv, by simp, ?_⟩
  intro a ha b hb
  simp only [List.mem_singleton] at hb
  subst hb
  rintro ⟨hsome, heq⟩
  rcases hfresh with hnone | ⟨hs, hhs, hfr⟩
  · rw [heq, hnone] at hsome
    exact absurd hsome (by simp)
  · rw [hhs] at heq
    exact hfr a ha heq

/-- One ingestion operation preserves the fingerprint unique constraint. -/
theorem applyOp_preserves (now : DateTime) (σ : Store) (op : Op)
    (hInv : HashUnique σ.txns) : HashUnique (applyOp now σ op).txns := by
  rcases op with ⟨t, d, a, cd, ct⟩ | c
  · rcases hres : Budget.add_transaction σ now t d a cd ct with e | ⟨σ', i⟩
    · simpa only [applyOp, hres] using hInv
    · have hshape := add_transaction_ok_shape σ now t d a cd ct σ' i hres
      simp only [applyOp, hres]
      rw [hshape]
      exact hashUnique_append σ.txns _ hInv (Or.inl rfl)
  · rcases hres : Budget.add_transaction_safe σ σ now c with e | ⟨σ', r⟩
    · simpa only [applyOp, hres] using hInv
    · simp only [applyOp, hres]
      rcases add_transaction_safe_ok_shape σ now c σ' r hres with hsame | ⟨hs, hfr, hshape⟩
      · rw [hsame]
        exact hInv
      · rw [hshape]
        exact hashUnique_append σ.txns _ hInv (Or.inr ⟨hs, rfl, hfr⟩)

/-- Any operation sequence from a store satisfying the constraint keeps it. -/
theorem runOps_preserves (now : DateTime) (ops : List Op) :
    ∀ σ : Store, HashUnique σ.txns → HashUnique (runOps now σ ops).txns := by
  induction ops with
  | nil => intro σ hInv; exact hInv
  | cons op rest ih =>
    intro σ hInv
    exact ih (applyOp now σ op) (applyOp_preserves now σ op hInv)

/-! ## The claim C2 theorems -/

/-- C2 counterexample: the strict-add path (`Budget.add_transaction`)
persists a transaction with a NULL fingerprint — after one strict add on a
fresh store, the stored row's `hash` column is `none`, so not every
persisted transaction carries a fingerprint. -/
theorem strict_add_persists_without_fingerprint :
    ((Budget.add_transaction emptyStore demoNow "cash" "coffee" 500 none none).toOption.map
      (fun p => p.1.txns.map Txn.hash)) = some [none] := by
  decide

/-- C2 (amended): after any sequence of strict and (sequential) safe adds
from the fresh store, no two persisted rows share a non-NULL fingerprint —
the store-level unique constraint — and every row inserted by the safe path
carries the fingerprint derived from its candidate at creation; strict-add
rows carry none. -/
theorem fingerprint_presence_uniqueness (now : DateTime) (ops : List Op) :
    HashUnique (runOps now emptyStore ops).txns ∧
    (∀ (σ : Store) (c : Candidate) (σ' : Store) (i : Nat),
      Budget.add_transaction_safe σ σ now c = .ok (σ', (some i, true)) →
      ∃ t, t ∈ σ'.txns ∧ t.id = i ∧
        t.hash = some (generate_transaction_hash (c.date.getD now) c.amount
          c.description c.card)) := by
  constructor
  · exact runOps_preserves now ops emptyStore (by unfold HashUnique emptyStore; simp)
  · intro σ c σ' i h
    unfold Budget.add_transaction_safe at h
    split at h
    · exact absurd h (by simp)
    split at h
    · exact absurd h (by simp)
    split at h
    · exact absurd h (by simp)
    rcases hfind : (σ.txns.filter (fun t => decide (t.hash =
        some (generate_transaction_hash (c.date.getD now) c.amount c.description
          c.card)))).head? with _ | ex
    all_goals rw [hfind] at h
    · rcases hany : σ.txns.any (fun t => decide (t.hash =
          some (generate_transaction_hash (c.date.getD now) c.amount c.description c.card)))
        with _ | _
      all_goals rw [hany] at h
      · simp only [Bool.false_eq_true, if_false] at h
        have hp := Except.ok.inj h
        obtain ⟨hσ, hr⟩ := (Prod.mk.injEq _ _ _ _).mp hp
        obtain ⟨hi, -⟩ := (Prod.mk.injEq _ _ _ _).mp hr
        refine ⟨{ id := σ.nextTxnId, type := c.type, card := c.card, category := c.category,
                  description := pyStrip c.description, amount := c.amount,
                  timestamp := c.date.getD now,
                  hash := some (generate_transaction_hash (c.date.getD now) c.amount
                    c.description c.card),
                  importSource := c.importSource,
                  importMetadata := some (c.metadata.getD "\x7b\x7d") }, ?_, ?_, rfl⟩
        · rw [← hσ]
          simp
        · exact Option.some.inj hi
      · simp only [if_true] at h
        have hp := Except.ok.inj h
        obtain ⟨-, hr⟩ := (Prod.mk.injEq _ _ _ _).mp hp
        obtain ⟨-, hb⟩ := (Prod.mk.injEq _ _ _ _).mp hr
        exact absurd hb (by simp)
    · have hp := Except.ok.inj h
      obtain ⟨-, hr⟩ := (Prod.mk.injEq _ _ _ _).mp hp
      obtain ⟨-, hb⟩ := (Prod.mk.injEq _ _ _ _).mp hr
      exact absurd hb (by simp)

/-- The store produced by safe-adding `demoCand` to the fresh store. -/
def demoSafeStore : Store :=
  { txns := [⟨1, "card", some "Visa", none, "Coffee", 550, ⟨⟨2025, 6, 1⟩, ⟨9, 30, 0, 0⟩⟩,
      some (generate_transaction_hash ⟨⟨2025, 6, 1⟩, ⟨9, 30, 0, 0⟩⟩ 550 "  Coffee "
        (some "Visa")),
      "pdf", some "\x7b\x7d"⟩],
    limits := [], nextTxnId := 2, nextLimitId := 1 }

/-- C2 witness: after a strict add followed by a safe add the unique
constraint holds, and the row inserted by the concrete safe add carries its
derived fingerprint. -/
theorem fingerprint_presence_uniqueness_witness :
    HashUnique (runOps demoNow emptyStore
      [Op.strict "cash" "coffee" 500 none none, Op.safe demoCand]).txns ∧
    (∃ t, t ∈ demoSafeStore.txns ∧ t.id = 1 ∧
      t.hash = some (generate_transaction_hash (demoCand.date.getD demoNow) demoCand.amount
        demoCand.description demoCand.card)) :=
  ⟨(fingerprint_presence_uniqueness demoNow
      [Op.strict "cash" "coffee" 500 none none, Op.safe demoCand]).1,
   (fingerprint_presence_uniqueness demoNow
      [Op.strict "cash" "coffee" 500 none none, Op.safe demoCand]).2
     emptyStore demoCand demoSafeStore 1 (by rfl)⟩

/-! ## Claim C9 -/

/-- Digit characters agree only for equal digits. -/
theorem digitChar_inj (a b : Nat) (h : digitChar a = digitChar b) : a % 10 = b % 10 := by
  have hfin : ∀ x < 10, ∀ y < 10, Char.ofNat (48 + x) = Char.ofNat (48 + y) → x = y := by
    decide
  exact hfin (a % 10) (Nat.mod_lt _ (by norm_num)) (b % 10) (Nat.mod_lt _ (by norm_num)) h

/-- `strftime("%Y-%m-%d")` is injective on in-range dates: a different
calendar day yields a different date string. -/
theorem toIso_inj (d1 d2 : Date) (h1y : d1.year < 10000) (h2y : d2.year < 10000)
    (h1m : d1.month < 100) (h2m : d2.month < 100) (h1d : d1.day < 100) (h2d : d2.day < 100)
    (h : d1.toIso = d2.toIso) : d1 = d2 := by
  have h' : String.mk [digitChar (d1.year / 1000), digitChar (d1.year / 100),
      digitChar (d1.year / 10), digitChar d1.year, '-', digitChar (d1.month / 10),
      digitChar d1.month, '-', digitChar (d1.day / 10), digitChar d1.day] =
    String.mk [digitChar (d2.year / 1000), digitChar (d2.year / 100),
      digitChar (d2.year / 10), digitChar d2.year, '-', digitChar (d2.month / 10),
      digitChar d2.month, '-', digitChar (d2.day / 10), digitChar d2.day] := h
  have hl := congrArg String.data h'
  simp only [List.cons.injEq, and_true] at hl
  obtain ⟨e1, e2, e3, e4, -, e5, e6, -, e7, e8⟩ := hl
  have q1 := digitChar_inj _ _ e1
  have q2 := digitChar_inj _ _ e2
  have q3 := digitChar_inj _ _ e3
  have q4 := digitChar_inj _ _ e4
  have q5 := digitChar_inj _ _ e5
  have q6 := digitChar_inj _ _ e6
  have q7 := digitChar_inj _ _ e7
  have q8 := digitChar_inj _ _ e8
  obtain ⟨y1, m1, dd1⟩ := d1
  obtain ⟨y2, m2, dd2⟩ := d2
  simp only at q1 q2 q3 q4 q5 q6 q7 q8 h1y h2y h1m h2m h1d h2d
  have : y1 = y2 := by omega
  have : m1 = m2 := by omega
  have : dd1 = dd2 := by omega
  simp_all

/-- Lists of characters embed back into strings injectively. -/
theorem string_data_inj (s t : String) (h : s.data = t.data) : s = t := by
  cases s
  cases t
  simp only at h
  rw [h]

/-- When exactly one of the four delimited fields differs (and the other
three agree), the concatenated `hash_input` strings differ: the three equal
fields cancel on the left and right of the single differing field. -/
theorem hashInput_single_diff (A A' B B' C C' D D' : String)
    (hdiff :
      (A ≠ A' ∧ B = B' ∧ C = C' ∧ D = D') ∨
      (A = A' ∧ B ≠ B' ∧ C = C' ∧ D = D') ∨
      (A = A' ∧ B = B' ∧ C ≠ C' ∧ D = D') ∨
      (A = A' ∧ B = B' ∧ C = C' ∧ D ≠ D')) :
    hashInput A B C D ≠ hashInput A' B' C' D' := by
  intro h
  have hd : A.data ++ ('|' :: (B.data ++ ('|' :: (C.data ++ ('|' :: D.data))))) =
      A'.data ++ ('|' :: (B'.data ++ ('|' :: (C'.data ++ ('|' :: D'.data))))) := by
    have hx := congrArg String.data h
    simpa only [hashInput, String.data_append] using hx
  rcases hdiff with ⟨hne, hB, hC, hD⟩ | ⟨hA, hne, hC, hD⟩ | ⟨hA, hB, hne, hD⟩ |
    ⟨hA, hB, hC, hne⟩
  · rw [hB, hC, hD] at hd
    exact hne (string_data_inj _ _ (List.append_cancel_right hd))
  · rw [hA, hC, hD] at hd
    have h1 := List.append_cancel_left hd
    have h2 := (List.cons.injEq _ _ _ _).mp h1
    exact hne (string_data_inj _ _ (List.append_cancel_right h2.2))
  · rw [hA, hB, hD] at hd
    have h1 := List.append_cancel_left hd
    have h2 := ((List.cons.injEq _ _ _ _).mp h1).2
    have h3 := List.append_cancel_left h2
    have h4 := ((List.cons.injEq _ _ _ _).mp h3).2
    exact hne (string_data_inj _ _ (List.append_cancel_right h4))
  · rw [hA, hB, hC] at hd
    have h1 := List.append_cancel_left hd
    have h2 := ((List.cons.injEq _ _ _ _).mp h1).2
    have h3 := List.append_cancel_left h2
    have h4 := ((List.cons.injEq _ _ _ _).mp h3).2
    have h5 := List.append_cancel_left h4
    have h6 := ((List.cons.injEq _ _ _ _).mp h5).2
    exact hne (string_data_inj _ _ h6)

/-- C9: two candidates that differ in exactly one identity field after
normalisation — a different calendar day (in `datetime` range), amounts
that format differently to 2 decimals, descriptions that differ after
lower-case and trim, or different normalised accounts — receive different
fingerprints: the delimited concatenation is injective in the single
differing field since the other three fields cancel. -/
theorem fingerprint_distinguishes_single_field
    (d1 d2 : DateTime) (a1 a2 : Int) (s1 s2 : String) (c1 c2 : Option String)
    (hy1 : d1.date.year < 10000) (hy2 : d2.date.year < 10000)
    (hm1 : d1.date.month < 100) (hm2 : d2.date.month < 100)
    (hd1 : d1.date.day < 100) (hd2 : d2.date.day < 100)
    (hdiff :
      (d1.date ≠ d2.date ∧ fmtAmount2 a1 = fmtAmount2 a2 ∧
        pyStrip (pyLower s1) = pyStrip (pyLower s2) ∧ normCard c1 = normCard c2) ∨
      (d1.date = d2.date ∧ fmtAmount2 a1 ≠ fmtAmount2 a2 ∧
        pyStrip (pyLower s1) = pyStrip (pyLower s2) ∧ normCard c1 = normCard c2) ∨
      (d1.date = d2.date ∧ fmtAmount2 a1 = fmtAmount2 a2 ∧
        pyStrip (pyLower s1) ≠ pyStrip (pyLower s2) ∧ normCard c1 = normCard c2) ∨
      (d1.date = d2.date ∧ fmtAmount2 a1 = fmtAmount2 a2 ∧
        pyStrip (pyLower s1) = pyStrip (pyLower s2) ∧ normCard c1 ≠ normCard c2)) :
    generate_transaction_hash d1 a1 s1 c1 ≠ generate_transaction_hash d2 a2 s2 c2 := by
  unfold generate_transaction_hash
  apply hashInput_single_diff
  rcases hdiff with ⟨hne, hB, hC, hD⟩ | ⟨hA, hne, hC, hD⟩ | ⟨hA, hB, hne, hD⟩ |
    ⟨hA, hB, hC, hne⟩
  · refine Or.inl ⟨?_, hB, hC, hD⟩
    intro hiso
    exact hne (toIso_inj d1.date d2.date hy1 hy2 hm1 hm2 hd1 hd2 hiso)
  · exact Or.inr (Or.inl ⟨by rw [hA], hne, hC, hD⟩)
  · exact Or.inr (Or.inr (Or.inl ⟨by rw [hA], hB, hne, hD⟩))
  · exact Or.inr (Or.inr (Or.inr ⟨by rw [hA], hB, hC, hne⟩))

/-- C9 witness: two candidates equal in every normalised field except the
amount (5.50 vs 5.51) get different fingerprints. -/
theorem fingerprint_distinguishes_single_field_witness :
    ((⟨⟨2025, 6, 1⟩, ⟨9, 30, 0, 0⟩⟩ : DateTime).date =
        (⟨⟨2025, 6, 1⟩, ⟨18, 0, 0, 0⟩⟩ : DateTime).date ∧
      fmtAmount2 550 ≠ fmtAmount2 551 ∧
      pyStrip (pyLower "Coffee") = pyStrip (pyLower " coffee ") ∧
      normCard (some "Visa") = normCard (some "visa")) ∧
    generate_transaction_hash ⟨⟨2025, 6, 1⟩, ⟨9, 30, 0, 0⟩⟩ 550 "Coffee" (some "Visa") ≠
      generate_transaction_hash ⟨⟨2025, 6, 1⟩, ⟨18, 0, 0, 0⟩⟩ 551 " coffee " (some "visa") :=
  ⟨by decide,
   fingerprint_distinguishes_single_field
     ⟨⟨2025, 6, 1⟩, ⟨9, 30, 0, 0⟩⟩ ⟨⟨2025, 6, 1⟩, ⟨18, 0, 0, 0⟩⟩ 550 551 "Coffee" " coffee "
     (some "Visa") (some "visa") (by decide) (by decide) (by decide) (by decide) (by decide)
     (by decide) (Or.inr (Or.inl (by decide)))⟩

/-! ## Claim C10 -/

/-- A safe add with valid inputs never raises. -/
theorem add_transaction_safe_ne_error (σlook σins : Store) (now : DateTime) (c : Candidate)
    (hdesc : ¬(pyStrip c.description = "")) (hamt : ¬(c.amount ≤ 0))
    (htype : c.type = "cash" ∨ c.type = "card") (e : String) :
    Budget.add_transaction_safe σlook σins now c ≠ .error e := by
  unfold Budget.add_transaction_safe
  rw [if_neg hdesc, if_neg hamt, if_neg (not_not_intro htype)]
  rcases hfind : (σlook.txns.filter (fun t => decide (t.hash =
      some (generate_transaction_hash (c.date.getD now) c.amount c.description
        c.card)))).head? with _ | ex
  all_goals rw [hfind]
  · rcases hany : σins.txns.any (fun t => decide (t.hash =
        some (generate_transaction_hash (c.date.getD now) c.amount c.description c.card)))
      with _ | _
    · simp
    · rcases hfind2 : (σins.txns.filter (fun t => decide (t.hash =
          some (generate_transaction_hash (c.date.getD now) c.amount c.description
            c.card)))).head? with _ | ex2
      · simp [hfind2]
      · simp [hfind2]
  · simp

/-- A safe add that reports `is_new = true` appended exactly one row, whose
stored type is the candidate's type. -/
theorem add_transaction_safe_isNew_shape (σ : Store) (now : DateTime) (c : Candidate)
    (σ' : Store) (i : Option Nat)
    (h : Budget.add_transaction_safe σ σ now c = .ok (σ', (i, true))) :
    ∃ t, σ'.txns = σ.txns ++ [t] ∧ t.type = c.type := by
  unfold Budget.add_transaction_safe at h
  split at h
  · exact absurd h (by simp)
  split at h
  · exact absurd h (by simp)
  split at h
  · exact absurd h (by simp)
  rcases hfind : (σ.txns.filter (fun t => decide (t.hash =
      some (generate_transaction_hash (c.date.getD now) c.amount c.description
        c.card)))).head? with _ | ex
  all_goals rw [hfind] at h
  · rcases hany : σ.txns.any (fun t => decide (t.hash =
        some (generate_transaction_hash (c.date.getD now) c.amount c.description c.card)))
      with _ | _
    all_goals rw [hany] at h
    · simp only [Bool.false_eq_true, if_false] at h
      have hp := Except.ok.inj h
      obtain ⟨hσ, -⟩ := (Prod.mk.injEq _ _ _ _).mp hp
      refine ⟨{ id := σ.nextTxnId, type := c.type, card := c.card, category := c.category,
                description := pyStrip c.description, amount := c.amount,
                timestamp := c.date.getD now,
                hash := some (generate_transaction_hash (c.date.getD now) c.amount
                  c.description c.card),
                importSource := c.importSource,
                importMetadata := some (c.metadata.getD "\x7b\x7d") }, ?_, rfl⟩
      rw [← hσ]
    · simp only [if_true] at h
      have hp := Except.ok.inj h
      obtain ⟨-, hr⟩ := (Prod.mk.injEq _ _ _ _).mp hp
      obtain ⟨-, hb⟩ := (Prod.mk.injEq _ _ _ _).mp hr
      exact absurd hb (by simp)
  · have hp := Except.ok.inj h
    obtain ⟨-, hr⟩ := (Prod.mk.injEq _ _ _ _).mp hp
    obtain ⟨-, hb⟩ := (Prod.mk.injEq _ _ _ _).mp hr
    exact absurd hb (by simp)

/-- C10: a batch record without a `"type"` key but with a valid description
and positive amount is ingested as a `"card"` transaction: the per-item
step succeeds (so the item is counted as imported or duplicate, never as an
error), and when it inserts, the stored row has type `"card"`. -/
theorem import_defaults_type_to_card (σ : Store) (now : DateTime) (src : String)
    (r : Budget.BatchRecord) (desc : String) (amt : Int)
    (htype : r.type = none) (hdesc : r.description = some desc)
    (hvdesc : ¬(pyStrip desc = "")) (hamt : r.amount = some amt) (hvamt : ¬(amt ≤ 0)) :
    (∃ σ' isNew, Budget.importItem σ now src r = .ok (σ', isNew) ∧
      (isNew = true → ∃ t, σ'.txns = σ.txns ++ [t] ∧ t.type = "card")) ∧
    (Budget.import_transactions σ now [r] src).2.errors = 0 ∧
    (Budget.import_transactions σ now [r] src).2.imported
      + (Budget.import_transactions σ now [r] src).2.duplicates = 1 := by
  have hitem : Budget.importItem σ now src r =
      (Budget.add_transaction_safe σ σ now
        ⟨"card", desc, amt, r.date, r.card, r.category, src, r.metadata⟩).map
        (fun p => (p.1, p.2.2)) := by
    unfold Budget.importItem
    rw [hdesc, hamt, htype]
    rfl
  have hsafe : ∃ σ' rr, Budget.add_transaction_safe σ σ now
      ⟨"card", desc, amt, r.date, r.card, r.category, src, r.metadata⟩ = .ok (σ', rr) ∧
      (rr.2 = true → ∃ t, σ'.txns = σ.txns ++ [t] ∧ t.type = "card") := by
    rcases hok : Budget.add_transaction_safe σ σ now
        ⟨"card", desc, amt, r.date, r.card, r.category, src, r.metadata⟩ with e | ⟨σ', rr⟩
    · exact absurd hok
        (add_transaction_safe_ne_error σ σ now _ hvdesc hvamt (Or.inr rfl) e)
    · refine ⟨σ', rr, rfl, fun hnew => ?_⟩
      rcases rr with ⟨i, b⟩
      cases b
      · exact absurd hnew (by simp)
      · exact add_transaction_safe_isNew_shape σ now _ σ' i hok
  obtain ⟨σ', rr, hok, hins⟩ := hsafe
  have hitem2 : Budget.importItem σ now src r = .ok (σ', rr.2) := by
    rw [hitem, hok]
    rfl
  refine ⟨⟨σ', rr.2, hitem2, hins⟩, ?_, ?_⟩
  all_goals
    unfold Budget.import_transactions
    simp only [List.foldl_cons, List.foldl_nil, Budget.importStep, hitem2]
  all_goals rcases hb : rr.2 with _ | _
  all_goals simp

/-- C10 witness: a record `{description: "lunch", amount: 12.00}` with no
`"type"` key imports once (no error) and the inserted row is a card
transaction. -/
theorem import_defaults_type_to_card_witness :
    ((⟨none, some "lunch", some 1200, none, none, none, none⟩ :
        Budget.BatchRecord).type = none ∧
     ¬(pyStrip "lunch" = "") ∧ ¬((1200 : Int) ≤ 0)) ∧
    ((∃ σ' isNew, Budget.importItem emptyStore demoNow "pdf"
        ⟨none, some "lunch", some 1200, none, none, none, none⟩ = .ok (σ', isNew) ∧
        (isNew = true → ∃ t, σ'.txns = emptyStore.txns ++ [t] ∧ t.type = "card")) ∧
     (Budget.import_transactions emptyStore demoNow
        [⟨none, some "lunch", some 1200, none, none, none, none⟩] "pdf").2.errors = 0 ∧
     (Budget.import_transactions emptyStore demoNow
        [⟨none, some "lunch", some 1200, none, none, none, none⟩] "pdf").2.imported
       + (Budget.import_transactions emptyStore demoNow
           [⟨none, some "lunch", some 1200, none, none, none, none⟩] "pdf").2.duplicates
       = 1) :=
  ⟨by decide,
   import_defaults_type_to_card emptyStore demoNow "pdf"
     ⟨none, some "lunch", some 1200, none, none, none, none⟩ "lunch" 1200
     rfl rfl (by decide) rfl (by decide)⟩

end BudgetCLI
